import Mathlib

/-!
Verification of the SimpLui task model (`simplui/task.py`).

This file gives a shallow embedding, in Lean 4, of the core of the
`simplui` task library: the deterministic task-id derivation
(`task_id_str`, including a full MD5 implementation over `Nat` and the
compact-JSON encoding used by `json.dumps(..., separators=(",", ":"),
sort_keys=True)`), task equality and hashing, the structural utilities
`flatten` and `getpaths` over nested Python values, the default and
wrapper completeness checks, bulk completeness, and the `Flow` container.
Machine words are `Nat` values reduced modulo `2 ^ 32`; fallible Python
code is embedded with `Except`; Python warnings are returned explicitly.
Each claim about the specification is then settled by a theorem.
-/

set_option maxRecDepth 100000

namespace SimpLui

/-! ## 32-bit arithmetic over `Nat` -/

/-- Mask of 32 one bits: words are `Nat` values kept below `2 ^ 32`. -/
def MASK32 : Nat := 4294967295

/-- Addition modulo `2 ^ 32`. -/
def add32 (a b : Nat) : Nat := (a + b) % 4294967296

/-- Bitwise complement on 32 bits. -/
def not32 (a : Nat) : Nat := Nat.xor a MASK32

/-- Left rotation of a 32-bit word by `n` places. -/
def rotl32 (x n : Nat) : Nat :=
  ((x <<< n) ||| (x >>> (32 - n))) &&& MASK32

/-! ## MD5 (RFC 1321), as used by `hashlib.new("md5")` -/

/-- MD5 per-round sine-derived constants. -/
def md5K : List Nat :=
  [0xd76aa478, 0xe8c7b756, 0x242070db, 0xc1bdceee,
   0xf57c0faf, 0x4787c62a, 0xa8304613, 0xfd469501,
   0x698098d8, 0x8b44f7af, 0xffff5bb1, 0x895cd7be,
   0x6b901122, 0xfd987193, 0xa679438e, 0x49b40821,
   0xf61e2562, 0xc040b340, 0x265e5a51, 0xe9b6c7aa,
   0xd62f105d, 0x02441453, 0xd8a1e681, 0xe7d3fbc8,
   0x21e1cde6, 0xc33707d6, 0xf4d50d87, 0x455a14ed,
   0xa9e3e905, 0xfcefa3f8, 0x676f02d9, 0x8d2a4c8a,
   0xfffa3942, 0x8771f681, 0x6d9d6122, 0xfde5380c,
   0xa4beea44, 0x4bdecfa9, 0xf6bb4b60, 0xbebfbc70,
   0x289b7ec6, 0xeaa127fa, 0xd4ef3085, 0x04881d05,
   0xd9d4d039, 0xe6db99e5, 0x1fa27cf8, 0xc4ac5665,
   0xf4292244, 0x432aff97, 0xab9423a7, 0xfc93a039,
   0x655b59c3, 0x8f0ccc92, 0xffeff47d, 0x85845dd1,
   0x6fa87e4f, 0xfe2ce6e0, 0xa3014314, 0x4e0811a1,
   0xf7537e82, 0xbd3af235, 0x2ad7d2bb, 0xeb86d391]

/-- MD5 per-round left-rotation amounts. -/
def md5S : List Nat :=
  [7, 12, 17, 22, 7, 12, 17, 22, 7, 12, 17, 22, 7, 12, 17, 22,
   5, 9, 14, 20, 5, 9, 14, 20, 5, 9, 14, 20, 5, 9, 14, 20,
   4, 11, 16, 23, 4, 11, 16, 23, 4, 11, 16, 23, 4, 11, 16, 23,
   6, 10, 15, 21, 6, 10, 15, 21, 6, 10, 15, 21, 6, 10, 15, 21]

/-- The 8 little-endian bytes of the 64-bit message bit length. -/
def md5LenBytes (len : Nat) : List Nat :=
  let bits := (len * 8) % (2 ^ 64)
  (List.range 8).map (fun i => (bits >>> (8 * i)) &&& 255)

/-- MD5 padding: a `0x80` byte, zero bytes up to 56 modulo 64, then the
bit length. `(119 - len % 64) % 64` counts the zero bytes. -/
def md5Pad (msg : List Nat) : List Nat :=
  let len := msg.length
  let zeros := (119 - (len % 64)) % 64
  msg ++ [0x80] ++ List.replicate zeros 0 ++ md5LenBytes len

/-- Split a byte list into 64-byte chunks; `fuel` bounds the number of
chunks, and any `fuel` at least the length is enough since every chunk
consumes at least one byte. Structural recursion on `fuel` keeps the
definition reducible by the kernel. -/
def md5ChunksFuel : Nat → List Nat → List (List Nat)
  | 0, _ => []
  | _ + 1, [] => []
  | fuel + 1, a :: rest => ((a :: rest).take 64) :: md5ChunksFuel fuel ((a :: rest).drop 64)

/-- Split a byte list into 64-byte chunks. -/
def md5Chunks (l : List Nat) : List (List Nat) := md5ChunksFuel l.length l

/-- Decode a 64-byte chunk into 16 little-endian 32-bit words. -/
def md5Words (chunk : List Nat) : List Nat :=
  (List.range 16).map (fun i =>
    chunk.getD (4 * i) 0 + (chunk.getD (4 * i + 1) 0) <<< 8 +
    (chunk.getD (4 * i + 2) 0) <<< 16 + (chunk.getD (4 * i + 3) 0) <<< 24)

/-- One MD5 round: update `(A, B, C, D)` using round index `i` and the
message words `M`. -/
def md5Round (M : List Nat) (st : Nat × Nat × Nat × Nat) (i : Nat) : Nat × Nat × Nat × Nat :=
  let (A, B, C, D) := st
  let (F, g) :=
    if i < 16 then ((B &&& C) ||| ((not32 B) &&& D), i)
    else if i < 32 then ((D &&& B) ||| ((not32 D) &&& C), (5 * i + 1) % 16)
    else if i < 48 then (Nat.xor (Nat.xor B C) D, (3 * i + 5) % 16)
    else (Nat.xor C (B ||| (not32 D)), (7 * i) % 16)
  let F2 := add32 (add32 (add32 F A) (md5K.getD i 0)) (M.getD g 0)
  (D, add32 B (rotl32 F2 (md5S.getD i 0)), B, C)

/-- Process one 64-byte chunk: run the 64 rounds and add the result into
the running state. -/
def md5Chunk (st : Nat × Nat × Nat × Nat) (chunk : List Nat) : Nat × Nat × Nat × Nat :=
  let M := md5Words chunk
  let (a0, b0, c0, d0) := st
  let (A, B, C, D) := (List.range 64).foldl (md5Round M) st
  (add32 a0 A, add32 b0 B, add32 c0 C, add32 d0 D)

/-- The lowercase hexadecimal digit for `n < 16`. -/
def hexChar (n : Nat) : Char :=
  if n < 10 then Char.ofNat (48 + n) else Char.ofNat (87 + n)

/-- The two lowercase hex digits of a byte. -/
def byteHex (b : Nat) : List Char := [hexChar (b / 16), hexChar (b % 16)]

/-- The four little-endian bytes of a 32-bit word. -/
def wordBytesLE (w : Nat) : List Nat :=
  [w &&& 255, (w >>> 8) &&& 255, (w >>> 16) &&& 255, (w >>> 24) &&& 255]

/-- The MD5 digest of a byte list, as the 32-character lowercase hex
string that `hashlib.md5(...).hexdigest()` produces. -/
def md5Hex (msg : List Nat) : String :=
  let chunks := md5Chunks (md5Pad msg)
  let (a, b, c, d) := chunks.foldl md5Chunk (0x67452301, 0xefcdab89, 0x98badcfe, 0x10325476)
  ⟨((wordBytesLE a ++ wordBytesLE b ++ wordBytesLE c ++ wordBytesLE d).map byteHex).flatten⟩

/-- UTF-8 encoding of one character, as in `str.encode("utf-8")`. -/
def utf8Bytes (c : Char) : List Nat :=
  let n := c.toNat
  if n < 0x80 then [n]
  else if n < 0x800 then [0xC0 ||| (n >>> 6), 0x80 ||| (n &&& 0x3F)]
  else if n < 0x10000 then
    [0xE0 ||| (n >>> 12), 0x80 ||| ((n >>> 6) &&& 0x3F), 0x80 ||| (n &&& 0x3F)]
  else
    [0xF0 ||| (n >>> 18), 0x80 ||| ((n >>> 12) &&& 0x3F),
     0x80 ||| ((n >>> 6) &&& 0x3F), 0x80 ||| (n &&& 0x3F)]

/-- UTF-8 bytes of a string. -/
def strUtf8 (s : String) : List Nat := (s.data.map utf8Bytes).flatten

/-- MD5 hex digest of the UTF-8 encoding of a string: the embedding of
`hashlib.new("md5", s.encode("utf-8")).hexdigest()`. -/
def md5HexOfString (s : String) : String := md5Hex (strUtf8 s)

/-- RFC 1321 test vector: the digest of the empty message. -/
theorem md5Hex_empty_vector : md5HexOfString "" = "d41d8cd98f00b204e9800998ecf8427e" := by
  decide

/-- RFC 1321 test vector: the digest of "abc". -/
theorem md5Hex_abc_vector : md5HexOfString "abc" = "900150983cd24fb0d6963f7d28e17f72" := by
  decide

/-- Two-block test vector: 64 bytes of `a`, whose padding spills into a
second chunk. -/
theorem md5Hex_two_block_vector :
    md5HexOfString "aaaaaaaaaaaaaaaaaaaaaaaaaaaaaaaaaaaaaaaaaaaaaaaaaaaaaaaaaaaaaaaa" =
      "014842d480b571495a4a0363793f7367" := by
  decide

/-- Boundary test vector: 56 bytes of `a`, where the length bytes alone
need the second chunk. -/
theorem md5Hex_boundary_vector :
    md5HexOfString "aaaaaaaaaaaaaaaaaaaaaaaaaaaaaaaaaaaaaaaaaaaaaaaaaaaaaaaa" =
      "3b0c8ac703f828b04c6c197006d17218" := by
  decide

/-! ## String helpers

Kernel-reducible (list-based) counterparts of Python string slicing,
mapping and joining; Lean core versions work on byte positions with
well-founded recursion, which the kernel does not unfold. -/

/-- Python `s[:n]`: the first `n` characters (code points) of `s`. -/
def strTake (s : String) (n : Nat) : String := ⟨s.data.take n⟩

/-- Map a function over the characters of a string. -/
def strMap (f : Char → Char) (s : String) : String := ⟨s.data.map f⟩

/-- Python `sep.join(parts)`. -/
def strJoinSep (sep : String) : List String → String
  | [] => ""
  | [x] => x
  | x :: y :: rest => x ++ sep ++ strJoinSep sep (y :: rest)

/-! ## String ordering, as Python compares `str` values -/

/-- Lexicographic comparison of code-point lists, Python string `<=`. -/
def charListLe : List Char → List Char → Bool
  | [], _ => true
  | _ :: _, [] => false
  | a :: as, b :: bs =>
    if a.toNat < b.toNat then true
    else if b.toNat < a.toNat then false
    else charListLe as bs

/-- Python string comparison `a <= b` (code-point lexicographic). -/
def strLe (a b : String) : Bool := charListLe a.data b.data

/-- Insert a string into a sorted list of strings. -/
def insortStr (x : String) : List String → List String
  | [] => [x]
  | y :: ys => if strLe x y then x :: y :: ys else y :: insortStr x ys

/-- Sort a list of strings, as `sorted` in Python orders `str` keys. -/
def sortStrs : List String → List String
  | [] => []
  | x :: xs => insortStr x (sortStrs xs)

/-! ## Compact JSON encoding of a `str -> str` mapping

The embedding of `json.dumps(params, separators=(",", ":"),
sort_keys=True)` on a dict of strings: keys sorted, no whitespace,
ASCII-escaped string literals. -/

/-- The four lowercase hex digits of `n < 2 ^ 16`. -/
def hex4 (n : Nat) : String :=
  ⟨[hexChar ((n >>> 12) % 16), hexChar ((n >>> 8) % 16), hexChar ((n >>> 4) % 16),
    hexChar (n % 16)]⟩

/-- Escape one character the way `json.dumps` (with `ensure_ascii=True`,
the default) writes it inside a string literal. -/
def jsonEscapeChar (c : Char) : String :=
  let n := c.toNat
  if n = 34 then "\\\""
  else if n = 92 then "\\\\"
  else if n = 8 then "\\b"
  else if n = 12 then "\\f"
  else if n = 10 then "\\n"
  else if n = 13 then "\\r"
  else if n = 9 then "\\t"
  else if 32 ≤ n && n ≤ 126 then String.singleton c
  else if n < 65536 then "\\u" ++ hex4 n
  else
    let m := n - 65536
    "\\u" ++ hex4 (0xD800 + (m >>> 10)) ++ "\\u" ++ hex4 (0xDC00 + (m &&& 0x3FF))

/-- A JSON string literal for `s`. -/
def jsonStr (s : String) : String :=
  "\"" ++ String.join (s.data.map jsonEscapeChar) ++ "\""

/-- Python `params[k]` on the mapping: total here because every key we
look up comes from the mapping itself. -/
def lookupD (params : List (String × String)) (k : String) : String :=
  (params.lookup k).getD ""

/-- Compact JSON object for the mapping, keys sorted lexicographically,
separators `","` and `":"` with no extra whitespace. -/
def jsonDumps (params : List (String × String)) : String :=
  let ks := sortStrs (params.map Prod.fst)
  "\x7b" ++ strJoinSep "," (ks.map (fun k => jsonStr k ++ ":" ++ jsonStr (lookupD params k))) ++ "\x7d"

/-! ## `task_id_str` (`simplui/task.py`) -/

/-- Number of parameters whose values appear in the readable id part. -/
def TASK_ID_INCLUDE_PARAMS : Nat := 3

/-- Length to which each such value is truncated. -/
def TASK_ID_TRUNCATE_PARAMS : Nat := 16

/-- Number of hex digits of the digest kept in the id. -/
def TASK_ID_TRUNCATE_HASH : Nat := 10

/-- Whether `c` is in `[A-Za-z0-9_]`, the class the regex
`TASK_ID_INVALID_CHAR_REGEX` leaves alone. -/
def isTaskIdValidChar (c : Char) : Bool :=
  (65 ≤ c.toNat && c.toNat ≤ 90) || (97 ≤ c.toNat && c.toNat ≤ 122) ||
    (48 ≤ c.toNat && c.toNat ≤ 57) || c.toNat == 95

/-- `TASK_ID_INVALID_CHAR_REGEX.sub("_", s)`: replace every character
outside `[A-Za-z0-9_]` with an underscore. -/
def taskIdCharSub (s : String) : String :=
  strMap (fun c => if isTaskIdValidChar c then c else '_') s

/-- The embedding of `task_id_str(task_family, params)`: canonical JSON
of the params, its MD5 digest, a readable summary of the first three
values in key order, and the formatted id. -/
def task_id_str (task_family : String) (params : List (String × String)) : String :=
  let param_str := jsonDumps params
  let param_hash := md5HexOfString param_str
  let param_summary := taskIdCharSub (strJoinSep "_"
    (((sortStrs (params.map Prod.fst)).take TASK_ID_INCLUDE_PARAMS).map
      (fun p => strTake (lookupD params p) TASK_ID_TRUNCATE_PARAMS)))
  task_family ++ "_" ++ param_summary ++ "_" ++ (strTake param_hash TASK_ID_TRUNCATE_HASH)

/-- Cross-checked example: the id of family `MyTask` with parameters
`a = "1"` and `b = "two"`; the digest of the canonical JSON
`{"a":"1","b":"two"}` starts `6204379e6f`. -/
theorem task_id_str_example :
    task_id_str "MyTask" [("a", "1"), ("b", "two")] = "MyTask_1_two_6204379e6f" := by
  decide

/-- Claim C1: `task_id_str` returns exactly `{family}_{param_summary}_{hash
part}`, where the hash part is the first 10 hex characters of the MD5
digest of the compact sorted-key JSON of the mapping, and the summary is
the values of the first 3 keys in lexicographic order, each truncated to
16 characters, joined with underscores, every character outside
`[A-Za-z0-9_]` replaced by an underscore; the result is a deterministic
function of family and mapping alone. -/
theorem C1_task_id_str_shape :
    ∀ (family : String) (params : List (String × String)),
      (task_id_str family params =
        family ++ "_" ++
          taskIdCharSub (strJoinSep "_"
            (((sortStrs (params.map Prod.fst)).take 3).map
              (fun k => strTake (lookupD params k) 16))) ++ "_" ++
          (strTake (md5HexOfString (jsonDumps params)) 10)) ∧
      (∀ (family2 : String) (params2 : List (String × String)),
        family2 = family → params2 = params →
          task_id_str family2 params2 = task_id_str family params) := by
  intro family params
  refine ⟨rfl, ?_⟩
  intro family2 params2 h1 h2
  rw [h1, h2]

/-- Witness for C1 at a concrete family and mapping. -/
theorem C1_task_id_str_shape_witness :
    ("MyTask" : String) = "MyTask" ∧
      task_id_str "MyTask" [("a", "1"), ("b", "two")] =
        task_id_str "MyTask" [("a", "1"), ("b", "two")] :=
  ⟨rfl, (C1_task_id_str_shape "MyTask" [("a", "1"), ("b", "two")]).2
    "MyTask" [("a", "1"), ("b", "two")] rfl rfl⟩

/-! ## Task instances: construction, equality, hashing

`Task.__init__` resolves the declared parameters to values, computes
`task_id = task_id_str(family, to_str_params(only_significant=True,
only_public=True))` and stores `hash(task_id)`; `__eq__` compares class
and `task_id`, `__hash__` returns the stored hash. -/

/-- Modelled from the spec: `ParameterVisibility` (defined in
`simplui/parameter.py`, which is not among the sources) — PUBLIC,
HIDDEN, PRIVATE, with PRIVATE excluded from any externally visible
serialization. -/
inductive ParameterVisibility where
  | PUBLIC
  | HIDDEN
  | PRIVATE
deriving DecidableEq

/-- Modelled from the spec: a parameter descriptor (from
`simplui/parameter.py`, not among the sources) carries a `significant`
flag, a `visibility`, and a parameter-type-specific `serialize` rule. -/
structure ParamDescr (V : Type) where
  significant : Bool
  visibility : ParameterVisibility
  serialize : V → String

/-- A task definition: its class identity, family name
(`get_task_family`), and the declared parameters in declaration order
(`get_params`). -/
structure TaskDef (V : Type) where
  clsId : Nat
  family : String
  params : List (String × ParamDescr V)

/-- The embedding of `Task.to_str_params(only_significant, only_public)`:
walk `param_kwargs` in order, keep the parameters that pass the
significance and visibility filter, and serialize each kept value. The
descriptor lookup cannot fail for instances built by the constructor,
whose `param_kwargs` keys are exactly the declared parameter names; the
impossible case yields no entry. -/
def to_str_entry (d : TaskDef V) (only_significant only_public : Bool) :
    String × V → Option (String × String)
  | (n, v) =>
    match d.params.lookup n with
    | none => none
    | some p =>
      if (!only_significant || p.significant) &&
          (!only_public || p.visibility == ParameterVisibility.PUBLIC) &&
          !(p.visibility == ParameterVisibility.PRIVATE)
      then some (n, p.serialize v) else none

/-- See `to_str_entry`, the body of the loop. -/
def to_str_params (d : TaskDef V) (param_kwargs : List (String × V))
    (only_significant only_public : Bool) : List (String × String) :=
  param_kwargs.filterMap (to_str_entry d only_significant only_public)

/-- A task instance as `Task.__init__` leaves it: definition, resolved
parameter values, `task_id`, and the hash stored for `__hash__`. -/
structure TaskInst (V : Type) where
  tdef : TaskDef V
  param_kwargs : List (String × V)
  task_id : String
  hashv : Nat

/-- The embedding of `Task.__init__`: pair the declared names with the
resolved values, compute the task id over the significant public
parameters, and store `hash(task_id)`; `pyhash` stands for the runtime
string hash. -/
def mkTask (pyhash : String → Nat) (d : TaskDef V) (vals : List V) : TaskInst V :=
  let kwargs := (d.params.map Prod.fst).zip vals
  let tid := task_id_str d.family (to_str_params d kwargs true true)
  { tdef := d, param_kwargs := kwargs, task_id := tid, hashv := pyhash tid }

/-- The embedding of `Task.__eq__`: same class and equal `task_id`. -/
def taskEq (t1 t2 : TaskInst V) : Bool :=
  t1.tdef.clsId == t2.tdef.clsId && t1.task_id == t2.task_id

/-- In an association list with distinct keys, every member is found by
`lookup` at its own key. -/
theorem lookup_of_mem_nodup {V : Type} :
    ∀ (l : List (String × ParamDescr V)), (l.map Prod.fst).Nodup →
      ∀ x ∈ l, l.lookup x.1 = some x.2 := by
  intro l
  induction l with
  | nil => intro _ x hx; cases hx
  | cons hd tl ih =>
    intro hnd x hx
    simp only [List.map_cons, List.nodup_cons] at hnd
    rcases List.mem_cons.mp hx with hx | hx
    · subst hx
      simp [List.lookup]
    · have hne : x.1 ≠ hd.1 := by
        intro he
        exact hnd.1 (he ▸ List.mem_map_of_mem Prod.fst hx)
      have hb : (x.1 == hd.1) = false := by simpa [beq_iff_eq] using hne
      simp only [List.lookup, hb]
      exact ih hnd.2 x hx

/-- Evaluation of `to_str_entry` when the descriptor of the parameter is
known. -/
theorem to_str_entry_eq {V : Type} (d : TaskDef V) (n : String) (p : ParamDescr V)
    (v : V) (os op : Bool) (h : d.params.lookup n = some p) :
    to_str_entry d os op (n, v) =
      if (!os || p.significant) && (!op || p.visibility == ParameterVisibility.PUBLIC) &&
          !(p.visibility == ParameterVisibility.PRIVATE)
      then some (n, p.serialize v) else none := by
  rw [to_str_entry, h]

/-- Unfolding `to_str_params` one parameter at a time, when the
descriptor of the head parameter is known. -/
theorem to_str_params_cons {V : Type} (d : TaskDef V) (n : String) (p : ParamDescr V)
    (v : V) (rest : List (String × V)) (os op : Bool)
    (h : d.params.lookup n = some p) :
    to_str_params d ((n, v) :: rest) os op =
      if (!os || p.significant) && (!op || p.visibility == ParameterVisibility.PUBLIC) &&
          !(p.visibility == ParameterVisibility.PRIVATE)
      then (n, p.serialize v) :: to_str_params d rest os op
      else to_str_params d rest os op := by
  unfold to_str_params
  rw [List.filterMap_cons, to_str_entry_eq d n p v os op h]
  by_cases hc : ((!os || p.significant) && (!op || p.visibility == ParameterVisibility.PUBLIC) &&
      !(p.visibility == ParameterVisibility.PRIVATE)) = true
  · rw [if_pos hc]
    simp [hc]
  · rw [if_neg hc]
    simp [hc]

/-- Two value lists that agree on every significant public parameter give
the same significant-public string parameters. -/
theorem to_str_params_congr {V : Type} (d : TaskDef V) :
    ∀ (ps : List (String × ParamDescr V)) (v1 v2 : List V),
      (∀ x ∈ ps, d.params.lookup x.1 = some x.2) →
      v1.length = ps.length → v2.length = ps.length →
      (∀ x ∈ ps.zip (v1.zip v2), x.1.2.significant = true →
        x.1.2.visibility = ParameterVisibility.PUBLIC → x.2.1 = x.2.2) →
      to_str_params d ((ps.map Prod.fst).zip v1) true true =
        to_str_params d ((ps.map Prod.fst).zip v2) true true := by
  intro ps
  induction ps with
  | nil =>
    intro v1 v2 _ h1 h2 _
    rw [List.length_nil, List.length_eq_zero] at h1 h2
    subst h1; subst h2
    rfl
  | cons hd tl ih =>
    intro v1 v2 hlk h1 h2 hagree
    match v1, v2 with
    | a :: v1, b :: v2 =>
      have hlkhd : d.params.lookup hd.1 = some hd.2 := hlk hd (List.mem_cons_self hd tl)
      have htl : to_str_params d ((tl.map Prod.fst).zip v1) true true =
          to_str_params d ((tl.map Prod.fst).zip v2) true true := by
        refine ih v1 v2 (fun x hx => hlk x (List.mem_cons_of_mem hd hx)) ?_ ?_ ?_
        · simpa using h1
        · simpa using h2
        · intro x hx
          exact hagree x (by simp [hx])
      have hexp1 : to_str_params d (((hd :: tl).map Prod.fst).zip (a :: v1)) true true =
          to_str_params d ((hd.1, a) :: (tl.map Prod.fst).zip v1) true true := by
        simp
      have hexp2 : to_str_params d (((hd :: tl).map Prod.fst).zip (b :: v2)) true true =
          to_str_params d ((hd.1, b) :: (tl.map Prod.fst).zip v2) true true := by
        simp
      rw [hexp1, hexp2, to_str_params_cons d hd.1 hd.2 a _ true true hlkhd,
        to_str_params_cons d hd.1 hd.2 b _ true true hlkhd]
      by_cases hsig : hd.2.significant = true
      · by_cases hvis : hd.2.visibility = ParameterVisibility.PUBLIC
        · have hab : a = b := hagree (hd, a, b) (by simp) hsig hvis
          subst hab
          rw [htl]
        · have hvb : (hd.2.visibility == ParameterVisibility.PUBLIC) = false := by
            simpa [beq_iff_eq] using hvis
          rw [if_neg (by simp [hvb]), if_neg (by simp [hvb])]
          exact htl
      · have hsb : hd.2.significant = false := by
          simpa using hsig
        rw [if_neg (by simp [hsb]), if_neg (by simp [hsb])]
        exact htl

/-- Claim C2: `T1 == T2` holds exactly when the two instances have the
same class and equal `task_id` strings; `hash(T)` is the hash of
`T.task_id`; and two instances of the same definition constructed with
identical significant-and-public parameter values get equal task ids and
compare equal. -/
theorem C2_task_eq_hash :
    ∀ (V : Type) (pyhash : String → Nat) (d : TaskDef V) (vals1 vals2 : List V),
      (∀ t1 t2 : TaskInst V, taskEq t1 t2 = true ↔
        (t1.tdef.clsId = t2.tdef.clsId ∧ t1.task_id = t2.task_id)) ∧
      (∀ (dd : TaskDef V) (vv : List V),
        (mkTask pyhash dd vv).hashv = pyhash (mkTask pyhash dd vv).task_id) ∧
      ((d.params.map Prod.fst).Nodup →
        vals1.length = d.params.length → vals2.length = d.params.length →
        (∀ x ∈ d.params.zip (vals1.zip vals2), x.1.2.significant = true →
          x.1.2.visibility = ParameterVisibility.PUBLIC → x.2.1 = x.2.2) →
        (mkTask pyhash d vals1).task_id = (mkTask pyhash d vals2).task_id ∧
          taskEq (mkTask pyhash d vals1) (mkTask pyhash d vals2) = true) := by
  intro V pyhash d vals1 vals2
  refine ⟨?_, ?_, ?_⟩
  · intro t1 t2
    simp [taskEq, Bool.and_eq_true, beq_iff_eq]
  · intro dd vv
    rfl
  · intro hnd h1 h2 hagree
    have hstr : to_str_params d ((d.params.map Prod.fst).zip vals1) true true =
        to_str_params d ((d.params.map Prod.fst).zip vals2) true true :=
      to_str_params_congr d d.params vals1 vals2
        (lookup_of_mem_nodup d.params hnd) h1 h2 hagree
    have hid : (mkTask pyhash d vals1).task_id = (mkTask pyhash d vals2).task_id := by
      simp only [mkTask]
      rw [hstr]
    refine ⟨hid, ?_⟩
    simp [taskEq, mkTask, hstr]

/-- A sample significant public parameter descriptor. -/
def sampleDescrA : ParamDescr Nat := ⟨true, ParameterVisibility.PUBLIC, fun v => toString v⟩

/-- A sample insignificant parameter descriptor. -/
def sampleDescrB : ParamDescr Nat := ⟨false, ParameterVisibility.PUBLIC, fun v => toString v⟩

/-- A sample task definition with parameters `a` (significant) and `b`
(insignificant). -/
def sampleDef : TaskDef Nat := ⟨1, "MyTask", [("a", sampleDescrA), ("b", sampleDescrB)]⟩

/-- Witness for C2: two instances of `sampleDef` agreeing on the
significant public parameter `a` but differing on the insignificant `b`
compare equal. -/
theorem C2_task_eq_hash_witness :
    (sampleDef.params.map Prod.fst).Nodup ∧
      taskEq (mkTask String.length sampleDef [1, 2])
        (mkTask String.length sampleDef [1, 3]) = true := by
  exact ⟨by decide, ((C2_task_eq_hash Nat String.length sampleDef [1, 2] [1, 3]).2.2
    (by decide) rfl rfl (by decide)).2⟩

/-! ## Nested Python structures: `flatten` and `getpaths`

`flatten(struct)` checks, in order: `None`, dict, str, iterability (via
`iter`), and treats everything else as a scalar. `getpaths(struct)`
checks: `Task`, dict, list or tuple, then falls back to iterating, and
turns an `iter` failure into a generic `Exception`. The structures are
embedded as a mutual inductive family; dicts carry their entries in
iteration (insertion) order. -/

mutual
/-- A nested Python value as `flatten` and `getpaths` see it: `None`, a
string, an int-like non-iterable scalar, an opaque object (a task, or a
target in an output structure), a dict, a list, a tuple, or some other
iterable (generator, set, and so on) with its iteration order. -/
inductive PyStruct (α : Type) where
  | pynone : PyStruct α
  | pystr (s : String) : PyStruct α
  | intval (n : Int) : PyStruct α
  | obj (a : α) : PyStruct α
  | pydict (es : PyFields α) : PyStruct α
  | pylist (es : PyElems α) : PyStruct α
  | pytuple (es : PyElems α) : PyStruct α
  | pyiter (es : PyElems α) : PyStruct α

/-- The key-value entries of a dict, in iteration order. -/
inductive PyFields (α : Type) where
  | nil : PyFields α
  | cons (k : String) (v : PyStruct α) (rest : PyFields α) : PyFields α

/-- The elements of a list, tuple or other iterable, in order. -/
inductive PyElems (α : Type) where
  | nil : PyElems α
  | cons (v : PyStruct α) (rest : PyElems α) : PyElems α
end

mutual
/-- The embedding of `flatten(struct)`: `None` gives the empty list, a
dict the concatenation of `flatten` over its values in iteration order,
a string a singleton (strings are tested before the generic iterable
branch), any other iterable the concatenation over its elements in
order, and a non-iterable leaf (`obj`, `intval`) a singleton. -/
def flatten : PyStruct α → List (PyStruct α)
  | .pynone => []
  | .pydict es => flattenFields es
  | .pystr s => [.pystr s]
  | .pylist es => flattenElems es
  | .pytuple es => flattenElems es
  | .pyiter es => flattenElems es
  | .obj a => [.obj a]
  | .intval n => [.intval n]

/-- `flatten` concatenated over dict values. -/
def flattenFields : PyFields α → List (PyStruct α)
  | .nil => []
  | .cons _ v rest => flatten v ++ flattenFields rest

/-- `flatten` concatenated over sequence elements. -/
def flattenElems : PyElems α → List (PyStruct α)
  | .nil => []
  | .cons v rest => flatten v ++ flattenElems rest
end

/-- Claim C3: `flatten` maps `None` to the empty list, a string to a
singleton (never iterating it character by character), a mapping to the
concatenation of `flatten` over its values in iteration order, any
other iterable to the concatenation over its elements in order, and a
non-iterable scalar (a task-like object or an int) to a singleton; in
particular `flatten([task_a, {"x": task_b}]) == [task_a, task_b]`. -/
theorem C3_flatten_shape :
    ∀ (α : Type),
      (flatten (α := α) .pynone = []) ∧
      (∀ s, flatten (α := α) (.pystr s) = [.pystr s]) ∧
      (flatten (α := α) (.pydict .nil) = []) ∧
      (∀ k v rest, flatten (α := α) (.pydict (.cons k v rest)) =
        flatten v ++ flatten (.pydict rest)) ∧
      (flatten (α := α) (.pylist .nil) = [] ∧ flatten (α := α) (.pytuple .nil) = [] ∧
        flatten (α := α) (.pyiter .nil) = []) ∧
      (∀ v rest, flatten (α := α) (.pylist (.cons v rest)) =
        flatten v ++ flatten (.pylist rest)) ∧
      (∀ v rest, flatten (α := α) (.pytuple (.cons v rest)) =
        flatten v ++ flatten (.pytuple rest)) ∧
      (∀ v rest, flatten (α := α) (.pyiter (.cons v rest)) =
        flatten v ++ flatten (.pyiter rest)) ∧
      (∀ a : α, flatten (.obj a) = [.obj a]) ∧
      (∀ n, flatten (α := α) (.intval n) = [.intval n]) ∧
      (∀ ta tb : α,
        flatten (.pylist (.cons (.obj ta) (.cons (.pydict (.cons "x" (.obj tb) .nil)) .nil))) =
          [.obj ta, .obj tb]) := by
  intro α
  refine ⟨rfl, fun s => rfl, rfl, fun k v rest => rfl, ⟨rfl, rfl, rfl⟩,
    fun v rest => rfl, fun v rest => rfl, fun v rest => rfl,
    fun a => rfl, fun n => rfl, fun ta tb => rfl⟩

/-! ## Python exceptions -/

/-- The Python exception classes the embedded code can raise. -/
inductive ExcClass where
  | exception
  | runtimeError
  | notImplementedError
  | bulkCompleteNotImplementedError
  | recursionError
  | typeError
  | valueError
  | attributeError
deriving DecidableEq

/-- The superclass of each class: `BulkCompleteNotImplementedError` is
declared in `task.py` as a subclass of `NotImplementedError`; the rest
is the CPython hierarchy (`NotImplementedError` and `RecursionError`
under `RuntimeError`, everything under `Exception`). -/
def pySuperclass : ExcClass → Option ExcClass
  | .exception => none
  | .runtimeError => some .exception
  | .notImplementedError => some .runtimeError
  | .bulkCompleteNotImplementedError => some .notImplementedError
  | .recursionError => some .runtimeError
  | .typeError => some .exception
  | .valueError => some .exception
  | .attributeError => some .exception

/-- Walk the superclass chain; fuel 8 exceeds the hierarchy depth. -/
def isSubclassOfFuel : Nat → ExcClass → ExcClass → Bool
  | 0, _, _ => false
  | fuel + 1, a, b =>
    a == b ||
      (match pySuperclass a with
       | none => false
       | some p => isSubclassOfFuel fuel p b)

/-- `issubclass(a, b)` over the embedded hierarchy: what `except b`
would catch when an instance of `a` is raised. -/
def isSubclassOf (a b : ExcClass) : Bool := isSubclassOfFuel 8 a b

/-- A raised Python exception: its class and message. -/
structure PyExc where
  cls : ExcClass
  msg : String
deriving DecidableEq

/-! ## `getpaths` -/

mutual
/-- The embedding of `getpaths(struct)` with `out` the `output()` of
each task: a task maps to its output, a dict to a dict with the same
keys (`struct.__class__((k, getpaths(v)) ...)`), a list or tuple to the
same kind elementwise, any other iterable to a plain list; a non-empty
string recurses forever in the source (iterating a one-character string
yields the string itself), embedded as `RecursionError`; `None` and
scalars fail `iter`, and the `TypeError` handler replaces them with a
generic `Exception("Cannot map %s to Task/dict/list")`. -/
def getpaths (out : α → ω) : PyStruct α → Except PyExc (PyStruct ω)
  | .obj t => .ok (.obj (out t))
  | .pydict es => (getpathsFields out es).map PyStruct.pydict
  | .pylist es => (getpathsElems out es).map PyStruct.pylist
  | .pytuple es => (getpathsElems out es).map PyStruct.pytuple
  | .pyiter es => (getpathsElems out es).map PyStruct.pylist
  | .pystr s =>
    match s.data with
    | [] => .ok (.pylist .nil)
    | _ :: _ => .error ⟨.recursionError, "maximum recursion depth exceeded"⟩
  | .pynone => .error ⟨.exception, "Cannot map None to Task/dict/list"⟩
  | .intval n => .error ⟨.exception, "Cannot map " ++ toString n ++ " to Task/dict/list"⟩

/-- `getpaths` over dict entries; an error in any value propagates. -/
def getpathsFields (out : α → ω) : PyFields α → Except PyExc (PyFields ω)
  | .nil => .ok .nil
  | .cons k v rest =>
    match getpaths out v with
    | .error e => .error e
    | .ok pv =>
      match getpathsFields out rest with
      | .error e => .error e
      | .ok prest => .ok (.cons k pv prest)

/-- `getpaths` over sequence elements; an error propagates. -/
def getpathsElems (out : α → ω) : PyElems α → Except PyExc (PyElems ω)
  | .nil => .ok .nil
  | .cons v rest =>
    match getpaths out v with
    | .error e => .error e
    | .ok pv =>
      match getpathsElems out rest with
      | .error e => .error e
      | .ok prest => .ok (.cons pv prest)
end

/-- `Except.map PyStruct.pydict` hits `ok` exactly on `ok`. -/
theorem map_pydict_ok {ω : Type} (r : Except PyExc (PyFields ω)) (pes : PyFields ω)
    (h : r.map PyStruct.pydict = .ok (.pydict pes)) : r = .ok pes := by
  cases r with
  | error e => simp [Except.map] at h
  | ok x =>
    simp only [Except.map, Except.ok.injEq, PyStruct.pydict.injEq] at h
    rw [h]

/-- `Except.map PyStruct.pylist` hits `ok` exactly on `ok`. -/
theorem map_pylist_ok {ω : Type} (r : Except PyExc (PyElems ω)) (pes : PyElems ω)
    (h : r.map PyStruct.pylist = .ok (.pylist pes)) : r = .ok pes := by
  cases r with
  | error e => simp [Except.map] at h
  | ok x =>
    simp only [Except.map, Except.ok.injEq, PyStruct.pylist.injEq] at h
    rw [h]

/-- `Except.map PyStruct.pytuple` hits `ok` exactly on `ok`. -/
theorem map_pytuple_ok {ω : Type} (r : Except PyExc (PyElems ω)) (pes : PyElems ω)
    (h : r.map PyStruct.pytuple = .ok (.pytuple pes)) : r = .ok pes := by
  cases r with
  | error e => simp [Except.map] at h
  | ok x =>
    simp only [Except.map, Except.ok.injEq, PyStruct.pytuple.injEq] at h
    rw [h]

/-- Claim C4: `getpaths` preserves container shape: a bare task maps
directly to its output (not wrapped in a singleton); a dict maps to a
dict with the same keys and `getpaths` of each value; a list or tuple
maps to the same container kind with `getpaths` applied elementwise in
order; and on the concrete examples of the spec,
`getpaths({"a": task_a}) == {"a": task_a.output()}` and
`getpaths([task_a, task_b])` is the list of the outputs in order. -/
theorem C4_getpaths_shape :
    ∀ (α ω : Type) (out : α → ω),
      (∀ t, getpaths out (.obj t) = .ok (.obj (out t))) ∧
      (getpaths out (.pydict .nil) = .ok (.pydict .nil)) ∧
      (∀ k v es pv pes, getpaths out v = .ok pv →
        getpaths out (.pydict es) = .ok (.pydict pes) →
        getpaths out (.pydict (.cons k v es)) = .ok (.pydict (.cons k pv pes))) ∧
      (getpaths out (.pylist .nil) = .ok (.pylist .nil)) ∧
      (∀ v es pv pes, getpaths out v = .ok pv →
        getpaths out (.pylist es) = .ok (.pylist pes) →
        getpaths out (.pylist (.cons v es)) = .ok (.pylist (.cons pv pes))) ∧
      (getpaths out (.pytuple .nil) = .ok (.pytuple .nil)) ∧
      (∀ v es pv pes, getpaths out v = .ok pv →
        getpaths out (.pytuple es) = .ok (.pytuple pes) →
        getpaths out (.pytuple (.cons v es)) = .ok (.pytuple (.cons pv pes))) ∧
      (∀ t, getpaths out (.pydict (.cons "a" (.obj t) .nil)) =
        .ok (.pydict (.cons "a" (.obj (out t)) .nil))) ∧
      (∀ t1 t2, getpaths out (.pylist (.cons (.obj t1) (.cons (.obj t2) .nil))) =
        .ok (.pylist (.cons (.obj (out t1)) (.cons (.obj (out t2)) .nil)))) := by
  intro α ω out
  refine ⟨fun t => rfl, rfl, ?_, rfl, ?_, rfl, ?_, fun t => rfl, fun t1 t2 => rfl⟩
  · intro k v es pv pes hv hes
    have hf : getpathsFields out es = .ok pes := map_pydict_ok _ _ hes
    simp only [getpaths, getpathsFields, hv, hf, Except.map]
  · intro v es pv pes hv hes
    have hf : getpathsElems out es = .ok pes := map_pylist_ok _ _ hes
    simp only [getpaths, getpathsElems, hv, hf, Except.map]
  · intro v es pv pes hv hes
    have hf : getpathsElems out es = .ok pes := map_pytuple_ok _ _ hes
    simp only [getpaths, getpathsElems, hv, hf, Except.map]

/-- Witness for C4 at a concrete structure: a one-entry dict around a
task with a `Nat` output. -/
theorem C4_getpaths_shape_witness :
    getpaths (fun t : Nat => t + 10) (.obj 1) = .ok (.obj 11) ∧
      getpaths (fun t : Nat => t + 10) (.pydict (.cons "k" (.obj 1) .nil)) =
        .ok (.pydict (.cons "k" (.obj 11) .nil)) :=
  ⟨(C4_getpaths_shape Nat Nat (fun t => t + 10)).1 1,
    (C4_getpaths_shape Nat Nat (fun t => t + 10)).2.2.1 "k" (.obj 1) .nil (.obj 11) .nil
      rfl rfl⟩

mutual
/-- Whether a structure holds a leaf that is neither a task-like object,
nor a mapping, nor an iterable: `None` or an int-like scalar. -/
def hasBadLeaf : PyStruct α → Bool
  | .pynone => true
  | .intval _ => true
  | .pystr _ => false
  | .obj _ => false
  | .pydict es => hasBadLeafFields es
  | .pylist es => hasBadLeafElems es
  | .pytuple es => hasBadLeafElems es
  | .pyiter es => hasBadLeafElems es

/-- `hasBadLeaf` over dict values. -/
def hasBadLeafFields : PyFields α → Bool
  | .nil => false
  | .cons _ v rest => hasBadLeaf v || hasBadLeafFields rest

/-- `hasBadLeaf` over sequence elements. -/
def hasBadLeafElems : PyElems α → Bool
  | .nil => false
  | .cons v rest => hasBadLeaf v || hasBadLeafElems rest
end

mutual
/-- Every error `getpaths` raises is either the generic `Exception`
from the `except TypeError` handler or a `RecursionError` from string
recursion; never a `TypeError`. -/
theorem gp_err_cls (out : α → ω) :
    ∀ (s : PyStruct α) (e : PyExc), getpaths out s = .error e →
      e.cls = ExcClass.exception ∨ e.cls = ExcClass.recursionError
  | .pynone, e, h => by
    simp only [getpaths, Except.error.injEq] at h
    exact Or.inl (by rw [← h])
  | .intval n, e, h => by
    simp only [getpaths, Except.error.injEq] at h
    exact Or.inl (by rw [← h])
  | .pystr s, e, h => by
    simp only [getpaths] at h
    cases hs : s.data with
    | nil => rw [hs] at h; simp at h
    | cons c cs =>
      rw [hs] at h
      simp only [Except.error.injEq] at h
      exact Or.inr (by rw [← h])
  | .obj a, e, h => by simp [getpaths] at h
  | .pydict es, e, h => by
    cases hf : getpathsFields out es with
    | error e2 =>
      have h2 := gpf_err_cls out es e2 hf
      simp only [getpaths, hf, Except.map, Except.error.injEq] at h
      rw [← h]; exact h2
    | ok x => simp [getpaths, hf, Except.map] at h
  | .pylist es, e, h => by
    cases hf : getpathsElems out es with
    | error e2 =>
      have h2 := gpe_err_cls out es e2 hf
      simp only [getpaths, hf, Except.map, Except.error.injEq] at h
      rw [← h]; exact h2
    | ok x => simp [getpaths, hf, Except.map] at h
  | .pytuple es, e, h => by
    cases hf : getpathsElems out es with
    | error e2 =>
      have h2 := gpe_err_cls out es e2 hf
      simp only [getpaths, hf, Except.map, Except.error.injEq] at h
      rw [← h]; exact h2
    | ok x => simp [getpaths, hf, Except.map] at h
  | .pyiter es, e, h => by
    cases hf : getpathsElems out es with
    | error e2 =>
      have h2 := gpe_err_cls out es e2 hf
      simp only [getpaths, hf, Except.map, Except.error.injEq] at h
      rw [← h]; exact h2
    | ok x => simp [getpaths, hf, Except.map] at h

/-- See `gp_err_cls`, over dict entries. -/
theorem gpf_err_cls (out : α → ω) :
    ∀ (es : PyFields α) (e : PyExc), getpathsFields out es = .error e →
      e.cls = ExcClass.exception ∨ e.cls = ExcClass.recursionError
  | .nil, e, h => by simp [getpathsFields] at h
  | .cons k v rest, e, h => by
    cases hv : getpaths out v with
    | error e2 =>
      have h2 := gp_err_cls out v e2 hv
      simp only [getpathsFields, hv, Except.error.injEq] at h
      rw [← h]; exact h2
    | ok pv =>
      cases hr : getpathsFields out rest with
      | error e2 =>
        have h2 := gpf_err_cls out rest e2 hr
        simp only [getpathsFields, hv, hr, Except.error.injEq] at h
        rw [← h]; exact h2
      | ok prest => simp [getpathsFields, hv, hr] at h

/-- See `gp_err_cls`, over sequence elements. -/
theorem gpe_err_cls (out : α → ω) :
    ∀ (es : PyElems α) (e : PyExc), getpathsElems out es = .error e →
      e.cls = ExcClass.exception ∨ e.cls = ExcClass.recursionError
  | .nil, e, h => by simp [getpathsElems] at h
  | .cons v rest, e, h => by
    cases hv : getpaths out v with
    | error e2 =>
      have h2 := gp_err_cls out v e2 hv
      simp only [getpathsElems, hv, Except.error.injEq] at h
      rw [← h]; exact h2
    | ok pv =>
      cases hr : getpathsElems out rest with
      | error e2 =>
        have h2 := gpe_err_cls out rest e2 hr
        simp only [getpathsElems, hv, hr, Except.error.injEq] at h
        rw [← h]; exact h2
      | ok prest => simp [getpathsElems, hv, hr] at h
end

mutual
/-- A structure holding a `None` or scalar leaf makes `getpaths` fail. -/
theorem gp_bad_err (out : α → ω) :
    ∀ (s : PyStruct α), hasBadLeaf s = true → ∃ e, getpaths out s = .error e
  | .pynone, _ => ⟨_, rfl⟩
  | .intval n, _ => ⟨_, rfl⟩
  | .pystr s, h => by simp [hasBadLeaf] at h
  | .obj a, h => by simp [hasBadLeaf] at h
  | .pydict es, h => by
    obtain ⟨e, he⟩ := gpf_bad_err out es (by simpa [hasBadLeaf] using h)
    exact ⟨e, by simp [getpaths, he, Except.map]⟩
  | .pylist es, h => by
    obtain ⟨e, he⟩ := gpe_bad_err out es (by simpa [hasBadLeaf] using h)
    exact ⟨e, by simp [getpaths, he, Except.map]⟩
  | .pytuple es, h => by
    obtain ⟨e, he⟩ := gpe_bad_err out es (by simpa [hasBadLeaf] using h)
    exact ⟨e, by simp [getpaths, he, Except.map]⟩
  | .pyiter es, h => by
    obtain ⟨e, he⟩ := gpe_bad_err out es (by simpa [hasBadLeaf] using h)
    exact ⟨e, by simp [getpaths, he, Except.map]⟩

/-- See `gp_bad_err`, over dict entries. -/
theorem gpf_bad_err (out : α → ω) :
    ∀ (es : PyFields α), hasBadLeafFields es = true →
      ∃ e, getpathsFields out es = .error e
  | .nil, h => by simp [hasBadLeafFields] at h
  | .cons k v rest, h => by
    cases hv : getpaths out v with
    | error e => exact ⟨e, by simp [getpathsFields, hv]⟩
    | ok pv =>
      have hb : hasBadLeafFields rest = true := by
        have hor : hasBadLeaf v = true ∨ hasBadLeafFields rest = true := by
          simpa [hasBadLeafFields] using h
        rcases hor with hv2 | hr
        · obtain ⟨e, he⟩ := gp_bad_err out v hv2
          rw [hv] at he
          simp at he
        · exact hr
      obtain ⟨e, he⟩ := gpf_bad_err out rest hb
      exact ⟨e, by simp [getpathsFields, hv, he]⟩

/-- See `gp_bad_err`, over sequence elements. -/
theorem gpe_bad_err (out : α → ω) :
    ∀ (es : PyElems α), hasBadLeafElems es = true →
      ∃ e, getpathsElems out es = .error e
  | .nil, h => by simp [hasBadLeafElems] at h
  | .cons v rest, h => by
    cases hv : getpaths out v with
    | error e => exact ⟨e, by simp [getpathsElems, hv]⟩
    | ok pv =>
      have hb : hasBadLeafElems rest = true := by
        have hor : hasBadLeaf v = true ∨ hasBadLeafElems rest = true := by
          simpa [hasBadLeafElems] using h
        rcases hor with hv2 | hr
        · obtain ⟨e, he⟩ := gp_bad_err out v hv2
          rw [hv] at he
          simp at he
        · exact hr
      obtain ⟨e, he⟩ := gpe_bad_err out rest hb
      exact ⟨e, by simp [getpathsElems, hv, he]⟩
end

/-- Counterexample to claim C8 as stated: on the non-iterable leaf `42`,
`getpaths` raises the generic `Exception("Cannot map 42 to
Task/dict/list")` — the `except TypeError` handler re-raises a plain
`Exception`, so the failure is not a `TypeError`-class error. -/
theorem C8_counterexample_not_typeError :
    getpaths (fun t : Nat => t) (.intval 42) =
        .error ⟨ExcClass.exception, "Cannot map 42 to Task/dict/list"⟩ ∧
      isSubclassOf ExcClass.exception ExcClass.typeError = false :=
  ⟨rfl, rfl⟩

/-- Claim C8 (amended): for every input to `getpaths` containing a leaf
that is neither a task, nor a mapping, nor an iterable, `getpaths`
fails, and the raised error is an `Exception`-class error that is not a
`TypeError`-class error (the `except TypeError` handler re-raises a
plain `Exception`). -/
theorem C8_getpaths_bad_leaf_error :
    ∀ (α ω : Type) (out : α → ω) (s : PyStruct α), hasBadLeaf s = true →
      ∃ e, getpaths out s = .error e ∧
        isSubclassOf e.cls ExcClass.typeError = false ∧
        isSubclassOf e.cls ExcClass.exception = true := by
  intro α ω out s h
  obtain ⟨e, he⟩ := gp_bad_err out s h
  rcases gp_err_cls out s e he with hc | hc
  · exact ⟨e, he, by rw [hc]; decide, by rw [hc]; decide⟩
  · exact ⟨e, he, by rw [hc]; decide, by rw [hc]; decide⟩

/-- Witness for the amended C8 at the concrete leaf `42`. -/
theorem C8_getpaths_bad_leaf_error_witness :
    hasBadLeaf (α := Nat) (.intval 42) = true ∧
      ∃ e, getpaths (fun t : Nat => t + 1) (.intval 42) = .error e ∧
        isSubclassOf e.cls ExcClass.typeError = false ∧
        isSubclassOf e.cls ExcClass.exception = true :=
  ⟨rfl, C8_getpaths_bad_leaf_error Nat Nat (fun t => t + 1) (.intval 42) rfl⟩

/-! ## Completeness: `Task.complete` and `WrapperTask.complete` -/

/-- A warning recorded by `warnings.warn` during a completeness check. -/
inductive Warn where
  | noOutputsNoCustomComplete
deriving DecidableEq

/-- An output target as `complete()` uses it: only its `exists()`
result matters. -/
structure Target where
  exists_result : Bool

/-- A required sub-task as `WrapperTask.complete` sees it: only its
`complete()` result matters (whatever override computes it). -/
structure SubTask where
  complete_result : Bool

/-- `output.exists()` on a flattened leaf: defined on target objects;
any other leaf would raise `AttributeError` in the source. -/
def leafExists : PyStruct Target → Option Bool
  | .obj t => some t.exists_result
  | _ => none

/-- `r.complete()` on a flattened leaf: defined on task objects. -/
def leafComplete : PyStruct SubTask → Option Bool
  | .obj r => some r.complete_result
  | _ => none

/-- `all(...)` over per-leaf checks, with the short-circuit of Python
`all`: a false result stops the iteration, so a failing leaf after a
false is never touched; `none` stands for the raised error. -/
def allLeaves (f : PyStruct β → Option Bool) : List (PyStruct β) → Option Bool
  | [] => some true
  | l :: rest =>
    match f l with
    | none => none
    | some false => some false
    | some true => allLeaves f rest

/-- When every leaf passes `f`, the short-circuit `all` is total and
agrees with `List.all`. -/
theorem allLeaves_eq_all (f : PyStruct β → Option Bool) :
    ∀ (ls : List (PyStruct β)), (∀ l ∈ ls, (f l).isSome) →
      allLeaves f ls = some (ls.all (fun l => (f l).getD false)) := by
  intro ls
  induction ls with
  | nil => intro _; rfl
  | cons l rest ih =>
    intro h
    have hl : (f l).isSome := h l (List.mem_cons_self l rest)
    obtain ⟨b, hb⟩ := Option.isSome_iff_exists.mp hl
    cases b with
    | false => simp [allLeaves, hb, List.all_cons]
    | true =>
      simp [allLeaves, hb, List.all_cons,
        ih (fun x hx => h x (List.mem_cons_of_mem _ hx))]

/-- The embedding of the default `Task.complete`: flatten the output
structure; when there are no outputs, warn and report incomplete;
otherwise complete exactly when every output exists. The first
component lists the warnings the call records. -/
def Task.complete (output : PyStruct Target) : List Warn × Option Bool :=
  let outputs := flatten output
  if outputs.length = 0 then ([Warn.noOutputsNoCustomComplete], some false)
  else ([], allLeaves leafExists outputs)

/-- Claim C5: with the default `complete()`, an empty flattened output
yields exactly one warning and `False`; otherwise no warning and
`True` exactly when every flattened output satisfies `exists()`. -/
theorem C5_default_complete :
    ∀ (output : PyStruct Target),
      (flatten output = [] →
        Task.complete output = ([Warn.noOutputsNoCustomComplete], some false) ∧
          (Task.complete output).1.length = 1) ∧
      (flatten output ≠ [] →
        (∀ l ∈ flatten output, ∃ t, l = PyStruct.obj t) →
        Task.complete output =
          ([], some ((flatten output).all (fun l => (leafExists l).getD false)))) := by
  intro output
  constructor
  · intro hflat
    constructor
    · simp [Task.complete, hflat]
    · simp [Task.complete, hflat]
  · intro hne hobj
    have hlen : ¬(flatten output).length = 0 := by
      simpa [List.length_eq_zero] using hne
    have hsome : ∀ l ∈ flatten output, (leafExists l).isSome := by
      intro l hl
      obtain ⟨t, ht⟩ := hobj l hl
      subst ht
      rfl
    unfold Task.complete
    rw [if_neg hlen, allLeaves_eq_all leafExists (flatten output) hsome]

/-- Witness for C5: an empty list output warns and is incomplete; a
single existing target output is complete. -/
theorem C5_default_complete_witness :
    (flatten (.pylist (.nil : PyElems Target)) = [] ∧
      Task.complete (.pylist .nil) = ([Warn.noOutputsNoCustomComplete], some false)) ∧
      Task.complete (.obj ⟨true⟩) = ([], some true) := by
  refine ⟨⟨rfl, ((C5_default_complete (.pylist .nil)).1 rfl).1⟩, ?_⟩
  have h2 := (C5_default_complete (.obj ⟨true⟩)).2 (by simp [flatten])
    (by intro l hl; simp only [flatten, List.mem_singleton] at hl; exact ⟨⟨true⟩, hl⟩)
  exact h2.trans rfl

/-- The embedding of `WrapperTask.complete`: complete exactly when all
flattened requirements are complete; no warning is ever recorded, so
the default no-output warning is bypassed although the wrapper declares
no output of its own. -/
def WrapperTask.complete (reqs : PyStruct SubTask) : List Warn × Option Bool :=
  ([], allLeaves leafComplete (flatten reqs))

/-- Claim C6: `WrapperTask.complete()` is `True` exactly when every
task in the flattened requirements reports `complete()`, records no
warning, and is `True` when there are no requirements at all. -/
theorem C6_wrapper_complete :
    ∀ (reqs : PyStruct SubTask),
      ((WrapperTask.complete reqs).1 = []) ∧
      ((∀ l ∈ flatten reqs, ∃ r, l = PyStruct.obj r) →
        WrapperTask.complete reqs =
          ([], some ((flatten reqs).all (fun l => (leafComplete l).getD false)))) ∧
      (WrapperTask.complete (.pylist .nil) = ([], some true)) := by
  intro reqs
  refine ⟨rfl, ?_, rfl⟩
  intro hobj
  have hsome : ∀ l ∈ flatten reqs, (leafComplete l).isSome := by
    intro l hl
    obtain ⟨r, hr⟩ := hobj l hl
    subst hr
    rfl
  unfold WrapperTask.complete
  rw [allLeaves_eq_all leafComplete (flatten reqs) hsome]

/-- Witness for C6: a wrapper over one complete and one incomplete
requirement is incomplete, with no warning. -/
theorem C6_wrapper_complete_witness :
    WrapperTask.complete (.pylist (.cons (.obj ⟨true⟩) (.cons (.obj ⟨false⟩) .nil))) =
        ([], some false) ∧
      WrapperTask.complete (.pylist (.nil : PyElems SubTask)) = ([], some true) := by
  refine ⟨?_, (C6_wrapper_complete (.pylist .nil)).2.2⟩
  have h2 := ((C6_wrapper_complete
    (.pylist (.cons (.obj ⟨true⟩) (.cons (.obj ⟨false⟩) .nil)))).2.1
    (by
      intro l hl
      simp only [flatten, flattenElems, List.append_nil] at hl
      rcases List.mem_cons.mp hl with hl | hl
      · exact ⟨⟨true⟩, hl⟩
      · exact ⟨⟨false⟩, by simpa using hl⟩))
  exact h2.trans rfl

/-! ## Bulk completeness -/

/-- The embedding of the default `Task.bulk_complete`: always raise
`BulkCompleteNotImplementedError`. -/
def Task.bulk_complete (parameter_tuples : List π) : Except PyExc (List π) :=
  .error ⟨.bulkCompleteNotImplementedError, ""⟩

/-- A parameter tuple as the naive mixin dispatches on it: a list or
tuple of positional values, a dict of keyword values, or a single
value. -/
inductive PTuple (V : Type) where
  | args (vs : List V)
  | kwdict (m : List (String × V))
  | single (v : V)
deriving DecidableEq

/-- The embedding of `MixinNaiveBulkComplete.bulk_complete`:
`completeOf pt` stands for the result of `cls(*pt).complete()`,
`cls(**pt).complete()` or `cls(pt).complete()` according to the shape
of the tuple; the loop appends each tuple whose instance is complete. -/
def MixinNaiveBulkComplete.bulk_complete (completeOf : PTuple V → Bool)
    (parameter_tuples : List (PTuple V)) : List (PTuple V) :=
  parameter_tuples.foldl
    (fun acc pt =>
      match pt with
      | .args _ => if completeOf pt then acc ++ [pt] else acc
      | .kwdict _ => if completeOf pt then acc ++ [pt] else acc
      | .single _ => if completeOf pt then acc ++ [pt] else acc)
    []

/-- The loop body appends exactly the complete tuples. -/
theorem mixin_bulk_foldl (completeOf : PTuple V → Bool) :
    ∀ (ts acc : List (PTuple V)),
      ts.foldl
        (fun acc pt =>
          match pt with
          | .args _ => if completeOf pt then acc ++ [pt] else acc
          | .kwdict _ => if completeOf pt then acc ++ [pt] else acc
          | .single _ => if completeOf pt then acc ++ [pt] else acc)
        acc = acc ++ ts.filter completeOf := by
  intro ts
  induction ts with
  | nil => intro acc; simp
  | cons pt rest ih =>
    intro acc
    have hbody : ∀ a : List (PTuple V),
        (match pt with
          | .args _ => if completeOf pt then a ++ [pt] else a
          | .kwdict _ => if completeOf pt then a ++ [pt] else a
          | .single _ => if completeOf pt then a ++ [pt] else a) =
          if completeOf pt then a ++ [pt] else a := by
      intro a
      cases pt <;> rfl
    rw [List.foldl_cons, hbody, List.filter_cons]
    by_cases hc : completeOf pt = true
    · rw [if_pos hc, if_pos hc, ih]
      simp
    · rw [if_neg hc, if_neg hc, ih]

/-- Claim C7: the default `bulk_complete` raises
`BulkCompleteNotImplementedError`, a strict subclass of
`NotImplementedError` that callers can catch specifically; the naive
mixin returns exactly the parameter tuples whose constructed instance
is complete — content exact (here even in order, as a filter). -/
theorem C7_bulk_complete :
    ∀ (π V : Type) (ts : List π) (completeOf : PTuple V → Bool) (pts : List (PTuple V)),
      (Task.bulk_complete ts = .error ⟨ExcClass.bulkCompleteNotImplementedError, ""⟩) ∧
      (isSubclassOf ExcClass.bulkCompleteNotImplementedError
        ExcClass.notImplementedError = true) ∧
      (ExcClass.bulkCompleteNotImplementedError ≠ ExcClass.notImplementedError) ∧
      (MixinNaiveBulkComplete.bulk_complete completeOf pts = pts.filter completeOf) ∧
      (∀ pt, pt ∈ MixinNaiveBulkComplete.bulk_complete completeOf pts ↔
        pt ∈ pts ∧ completeOf pt = true) := by
  intro π V ts completeOf pts
  have hfilter : MixinNaiveBulkComplete.bulk_complete completeOf pts =
      pts.filter completeOf := by
    unfold MixinNaiveBulkComplete.bulk_complete
    rw [mixin_bulk_foldl completeOf pts []]
    rfl
  refine ⟨rfl, rfl, by decide, hfilter, ?_⟩
  intro pt
  rw [hfilter, List.mem_filter]

/-! ## The `Flow` container

`Flow.__init__` assigns exactly the attributes `taskset` (a name-keyed
dict in insertion order), `name` and `autoRename` (defaulting to
`True`); `add` re-assigns `taskset` entries and may set the name of the
added task; no code path assigns an attribute called `tasks`. -/

/-- A task as `Flow` manipulates it: the optional `name` attribute
(never set by the base `Task.__init__`) and the task id as payload. -/
structure TaskObj where
  nameAttr : Option String
  tid : String
deriving DecidableEq

/-- The state of a `Flow` instance. -/
structure Flow where
  taskset : List (String × TaskObj)
  name : String
  autoRename : Bool
deriving DecidableEq

/-- `Flow(iname)`: empty task set, auto-rename enabled by default. -/
def Flow.init (iname : String) : Flow :=
  { taskset := [], name := iname, autoRename := true }

/-- A value yielded while iterating an attribute of a `Flow`. -/
inductive IterItem where
  | strItem (s : String)
  | taskItem (t : TaskObj)
deriving DecidableEq

/-- The values a `Flow` instance attribute can hold. -/
inductive FlowAttr where
  | tasksetA (m : List (String × TaskObj))
  | nameA (s : String)
  | autoRenameA (b : Bool)
deriving DecidableEq

/-- Attribute lookup on a `Flow` instance: only `taskset`, `name` and
`autoRename` are ever assigned, so any other attribute raises
`AttributeError`. -/
def Flow.getattr (f : Flow) (a : String) : Except PyExc FlowAttr :=
  if a = "taskset" then .ok (.tasksetA f.taskset)
  else if a = "name" then .ok (.nameA f.name)
  else if a = "autoRename" then .ok (.autoRenameA f.autoRename)
  else .error ⟨.attributeError, "Flow object has no attribute " ++ a⟩

/-- `iter(v)` on an attribute value: a dict yields its keys, a string
its characters, a bool is not iterable. -/
def iterAttr : FlowAttr → Except PyExc (List IterItem)
  | .tasksetA m => .ok (m.map (fun kv => .strItem kv.1))
  | .nameA s => .ok (s.data.map (fun c => .strItem (String.singleton c)))
  | .autoRenameA _ => .error ⟨.typeError, "bool object is not iterable"⟩

/-- The embedding of `Flow.__iter__`: `return iter(self.tasks)` — it
reads the attribute `tasks`, not `taskset`. -/
def Flow.iterFlow (f : Flow) : Except PyExc (List IterItem) :=
  match f.getattr "tasks" with
  | .error e => .error e
  | .ok v => iterAttr v

/-- Claim C9 (what the code does): iterating any `Flow` raises
`AttributeError`, because `__iter__` reads `self.tasks` while the only
attributes a `Flow` ever has are `taskset`, `name` and `autoRename` —
it never yields the stored tasks. -/
theorem C9_flow_iter_attribute_error :
    ∀ (f : Flow), Flow.iterFlow f =
      .error ⟨ExcClass.attributeError, "Flow object has no attribute tasks"⟩ := by
  intro f
  rfl

/-- The `while` loop of `Flow.getUniqueName`, with `newname` and
`incval` as in the source and `fuel = 100000 - incval`, so that
`0 < fuel` is exactly the loop bound `incval < 100000`; structural
recursion on `fuel` keeps the definition kernel-reducible. On exit the
source returns `newname` when it is unused, else raises `ValueError`. -/
def gunGo (flowName ctaskName : String) (keys : List String) :
    String → Nat → Nat → Except PyExc String
  | newname, _, 0 =>
    if newname ∈ keys then
      .error ⟨.valueError,
        "Could not find a unique name for task " ++ ctaskName ++ " in flow " ++ flowName⟩
    else .ok newname
  | newname, incval, fuel + 1 =>
    if newname ∈ keys then
      gunGo flowName ctaskName keys (flowName ++ "_" ++ toString incval) (incval + 1) fuel
    else .ok newname

/-- The embedding of `Flow.getUniqueName`: reads `ctask.name` — an
`AttributeError` when the task has no `name` attribute, as after the
base `Task.__init__` — then runs the search loop. -/
def Flow.getUniqueName (f : Flow) (ctask : TaskObj) : Except PyExc String :=
  match ctask.nameAttr with
  | none => .error ⟨.attributeError, "Task object has no attribute name"⟩
  | some nm => gunGo f.name nm (f.taskset.map Prod.fst) nm 0 100000

/-- Python dict assignment `d[k] = v`: replace in place when the key
exists, append otherwise. -/
def dictInsert (m : List (String × TaskObj)) (k : String) (v : TaskObj) :
    List (String × TaskObj) :=
  if (m.lookup k).isSome then m.map (fun kv => if kv.1 = k then (k, v) else kv)
  else m ++ [(k, v)]

/-- The argument of `Flow.add`: a task instance or something else. -/
inductive AddArg where
  | task (t : TaskObj)
  | notATask

/-- The embedding of `Flow.add`: `TypeError` for non-tasks; with
`autoRename` set, compute the unique name (reading `intask.name`),
assign it to the task and store it; otherwise reject a duplicate name
with `ValueError` and store under the existing name. -/
def Flow.add (f : Flow) (intask : AddArg) : Except PyExc Flow :=
  match intask with
  | .notATask => .error ⟨.typeError, "Only simplui.Task instances can be added to a Flow"⟩
  | .task t =>
    if f.autoRename then
      match f.getUniqueName t with
      | .error e => .error e
      | .ok nm =>
        let t2 := { t with nameAttr := some nm }
        .ok { f with taskset := dictInsert f.taskset nm t2 }
    else
      match t.nameAttr with
      | none => .error ⟨.attributeError, "Task object has no attribute name"⟩
      | some nm =>
        if nm ∈ f.taskset.map Prod.fst then
          .error ⟨.valueError, "Task with name " ++ nm ++ " already exists in the flow"⟩
        else .ok { f with taskset := dictInsert f.taskset nm t }

/-- A result the loop returns is the starting name or built from the
flow name and a numeric suffix. -/
theorem gunGo_ok_shape (flowName ctaskName : String) (keys : List String) :
    ∀ (fuel : Nat) (newname : String) (incval : Nat) (r : String),
      gunGo flowName ctaskName keys newname incval fuel = .ok r →
      r = newname ∨ ∃ k : Nat, r = flowName ++ "_" ++ toString k := by
  intro fuel
  induction fuel with
  | zero =>
    intro newname incval r h
    by_cases hm : newname ∈ keys
    · simp [gunGo, hm] at h
    · left
      simp only [gunGo, hm, if_false, Except.ok.injEq] at h
      exact h.symm
  | succ fuel ih =>
    intro newname incval r h
    by_cases hm : newname ∈ keys
    · have h2 := ih (flowName ++ "_" ++ toString incval) (incval + 1) r
        (by simpa [gunGo, hm] using h)
      rcases h2 with h2 | h2
      · exact Or.inr ⟨incval, h2⟩
      · exact Or.inr h2
    · left
      simp only [gunGo, hm, if_false, Except.ok.injEq] at h
      exact h.symm

/-- When the starting name collides, any name the loop returns is built
from the flow name and a numeric suffix. -/
theorem gunGo_ok_mem (flowName ctaskName : String) (keys : List String) :
    ∀ (fuel : Nat) (newname : String) (incval : Nat) (r : String),
      newname ∈ keys →
      gunGo flowName ctaskName keys newname incval fuel = .ok r →
      ∃ k : Nat, r = flowName ++ "_" ++ toString k := by
  intro fuel
  cases fuel with
  | zero =>
    intro newname incval r hm h
    simp [gunGo, hm] at h
  | succ fuel =>
    intro newname incval r hm h
    have h2 : gunGo flowName ctaskName keys (flowName ++ "_" ++ toString incval)
        (incval + 1) fuel = .ok r := by
      simpa [gunGo, hm] using h
    rcases gunGo_ok_shape flowName ctaskName keys fuel _ (incval + 1) r h2 with h3 | h3
    · exact ⟨incval, h3⟩
    · exact h3

/-- Claim C10: auto-rename is on by default; adding a task without a
`name` attribute (as the base constructor leaves it) to an auto-rename
`Flow` fails with `AttributeError` — the task is not stored and no
documented construction error is raised; and on a name collision the
disambiguated name is the Flow name followed by a numeric suffix, not
the task name. -/
theorem C10_flow_add_name :
    ∀ (f : Flow) (t : TaskObj),
      (∀ nm, (Flow.init nm).autoRename = true) ∧
      (t.nameAttr = none → f.autoRename = true →
        Flow.add f (.task t) =
          .error ⟨ExcClass.attributeError, "Task object has no attribute name"⟩) ∧
      (∀ nm r, t.nameAttr = some nm → nm ∈ f.taskset.map Prod.fst →
        f.getUniqueName t = .ok r → ∃ k : Nat, r = f.name ++ "_" ++ toString k) := by
  intro f t
  refine ⟨fun nm => rfl, ?_, ?_⟩
  · intro h1 h2
    simp [Flow.add, Flow.getUniqueName, h1, h2]
  · intro nm r h1 h2 h3
    rw [Flow.getUniqueName, h1] at h3
    exact gunGo_ok_mem f.name nm (f.taskset.map Prod.fst) 100000 nm 0 r h2 h3

/-- Witness for C10: a flow named `fl` already holding a task named
`t`; adding a nameless task fails with `AttributeError`, and the
disambiguated name for a second task named `t` is `fl_0`. -/
theorem C10_flow_add_name_witness :
    ((⟨none, "y"⟩ : TaskObj).nameAttr = none ∧
      (⟨[("t", ⟨some "t", "z"⟩)], "fl", true⟩ : Flow).autoRename = true ∧
      Flow.add ⟨[("t", ⟨some "t", "z"⟩)], "fl", true⟩ (.task ⟨none, "y"⟩) =
        .error ⟨ExcClass.attributeError, "Task object has no attribute name"⟩) ∧
      (Flow.getUniqueName ⟨[("t", ⟨some "t", "z"⟩)], "fl", true⟩ ⟨some "t", "x"⟩ =
          .ok "fl_0" ∧
        ∃ k : Nat, "fl_0" = "fl" ++ "_" ++ toString k) :=
  ⟨⟨rfl, rfl,
    (C10_flow_add_name ⟨[("t", ⟨some "t", "z"⟩)], "fl", true⟩ ⟨none, "y"⟩).2.1 rfl rfl⟩,
   ⟨rfl,
    (C10_flow_add_name ⟨[("t", ⟨some "t", "z"⟩)], "fl", true⟩ ⟨some "t", "x"⟩).2.2
      "t" "fl_0" rfl (by decide) rfl⟩⟩

end SimpLui
